import Mathlib

/-!
# Verification of the WebPageScreenShotTaker capture/stitch/serialize pipeline

A shallow embedding, in Lean 4, of the core of `src/popup.js`:

* the `ascii85Encode` function (JavaScript semantics, including the signed
  32-bit wraparound of the `<<` and `|` operators, the sign-following `%`
  remainder, `Math.floor` division, and the `ToUint16` conversion performed
  by `String.fromCharCode`);
* the `captureFullPage` scroll/capture loop with its scroll-position
  save/restore and its handling of empty or throwing capture responses;
* the `start-capture` message listener with its `isRunning` re-entrancy
  guard and the zero-slice abort check;
* the `stitchImages` compositor (destination offsets, last-tile clipping,
  in-bounds writes);
* the `MinimalPdf` writer (`addObject` / `addJpegImage` /
  `addPageWithImage` / `serialize`) together with `encodePdfString`
  (UTF-8) and the cross-reference offset bookkeeping;
* the `createPdfFromCanvas` page-geometry downscaling.

Strings of the JavaScript program are modelled as lists of UTF-16 code
units (`List Nat`), byte buffers as lists of byte values (`List Nat`),
JavaScript integer-valued numbers as `Int` (with explicit `% 2^32`
wrapping where the program's bitwise operators truncate to Int32), and
the fractional arithmetic of `createPdfFromCanvas` as exact rationals.
-/

namespace ScreenShot

/-! ## JavaScript number primitives -/

/-- Interpret an integer as a signed 32-bit value (two's complement), as
JavaScript's `ToInt32` does for the results of bitwise operators. -/
def toInt32 (n : Int) : Int :=
  (n + 2 ^ 31) % 2 ^ 32 - 2 ^ 31

/-- The unsigned 32-bit pattern of a JavaScript Int32 value. -/
def toUint32 (n : Int) : Nat :=
  (n % 2 ^ 32).toNat

/-- JavaScript `a << 8` on an Int32-valued `a`: shift the 32-bit pattern
left by 8 and reinterpret as signed. -/
def jsShl8 (a : Int) : Int :=
  toInt32 (a * 256)

/-- JavaScript `a | b`: bitwise or of the 32-bit patterns, reinterpreted
as signed. -/
def jsOr (a b : Int) : Int :=
  toInt32 (Nat.lor (toUint32 a) (toUint32 b))

/-- JavaScript `a % b` for integers: remainder with the sign of the
dividend (truncated division). -/
def jsRem (a b : Int) : Int :=
  Int.tmod a b

/-- JavaScript `Math.floor (a / b)` for an integer `a` and positive
integer `b`. -/
def jsFloorDiv (a b : Int) : Int :=
  Int.fdiv a b

/-- JavaScript `String.fromCharCode c`: the argument is converted with
`ToUint16`, so the resulting UTF-16 code unit is `c mod 2^16`. -/
def fromCharCode (c : Int) : Nat :=
  (c % 2 ^ 16).toNat

/-- JavaScript `Math.round x` for a finite number modelled as a rational:
`⌊x + 1/2⌋`. -/
def jsRound (x : ℚ) : Int :=
  ⌊x + 1 / 2⌋

/-! ## The `ascii85Encode` function of `src/popup.js`

`function ascii85Encode(bytes)` maintains `tuple` (a JavaScript number
that the `<<`/`|` operators coerce to Int32) and `count`; every fourth
byte flushes a 5-character group (or `'z'` when the group is zero), and
a trailing partial group of `count` bytes is shifted up with
`tuple <<= 8` and emits `count + 1` characters. -/

/-- The inner digit loop
`for (j...) { enc = String.fromCharCode((tuple % 85) + 33) + enc; tuple = Math.floor(tuple / 85); }`:
emit `k` characters, least-significant digit produced first but prepended,
so the digits appear most-significant first. -/
def a85chars : Int → Nat → List Nat
  | _, 0 => []
  | t, k + 1 => a85chars (jsFloorDiv t 85) k ++ [fromCharCode (jsRem t 85 + 33)]

/-- `tuple <<= 8` iterated `n` times (the zero-padding loop
`for (let i = count; i < 4; i++) tuple <<= 8`). -/
def shl8Iter (t : Int) : Nat → Int
  | 0 => t
  | n + 1 => shl8Iter (jsShl8 t) n

/-- The byte loop of `ascii85Encode`, carrying `(tuple, count)`.  On the
empty remainder it performs the partial-group epilogue
(`if (count > 0) { ... }`). -/
def a85core : Int → Nat → List Nat → List Nat
  | tuple, count, [] =>
    if 0 < count then
      a85chars (shl8Iter tuple (4 - count)) (count + 1)
    else
      []
  | tuple, count, b :: rest =>
    let t := jsOr (jsShl8 tuple) b
    if count + 1 = 4 then
      (if t = 0 then [122] else a85chars t 5) ++ a85core 0 0 rest
    else
      a85core t (count + 1) rest

/-- `ascii85Encode` from `src/popup.js`, as a function from a byte list to
the list of UTF-16 code units of the returned string (the code points of
`'~'` and `'>'` are 126 and 62). -/
def ascii85Encode (bytes : List Nat) : List Nat :=
  a85core 0 0 bytes ++ [126, 62]

/-! ## The reference Ascii85 encoding, from the spec's words

"process input in groups of 4 bytes; each group is interpreted as a
32-bit unsigned big-endian integer and re-expressed in base 85 as 5
characters, each character being `(value mod 85) + 33` computed from
least-significant digit outward; a group whose 32-bit value is exactly
zero is represented by the single character `z`.  A final partial group
of 1-3 bytes is zero-padded to 4 bytes for the arithmetic, encoded as
above, but only the first `n+1` of the 5 output characters are kept.
The output is terminated with a fixed two-character end marker." -/

/-- `k` base-85 digit characters of `v`, least-significant digit computed
first and assembled in reverse (spec reference; `Nat` arithmetic since
the group value is a 32-bit *unsigned* integer). -/
def refA85chars : Nat → Nat → List Nat
  | _, 0 => []
  | v, k + 1 => refA85chars (v / 85) k ++ [v % 85 + 33]

/-- Group loop of the reference encoding. -/
def refA85groups : List Nat → List Nat
  | b0 :: b1 :: b2 :: b3 :: rest =>
    let v := ((b0 * 256 + b1) * 256 + b2) * 256 + b3
    (if v = 0 then [122] else refA85chars v 5) ++ refA85groups rest
  | [] => []
  | lastGroup =>
    let n := lastGroup.length
    let v := (lastGroup ++ List.replicate (4 - n) 0).foldl
      (fun acc b => acc * 256 + b) 0
    (refA85chars v 5).take (n + 1)

/-- The spec's reference Ascii85 encoding, end marker `~>` included. -/
def refAscii85Encode (bytes : List Nat) : List Nat :=
  refA85groups bytes ++ [126, 62]

/-! ## The Ascii85 decoding defined in the spec

Modelled from the spec: the repository contains no decoder (decoding is
performed by the consuming document reader); the spec defines decoding as
"reversing the 5-for-4 base-85 transform, the `z` shortcut, the
partial-group rule, and stripping the two-character end marker".  A
character is a valid base-85 digit iff its code is in `[33, 117]`; a
partial final group of `k+1` characters is completed with the maximal
digit `'u'` (117) and the first `k` decoded bytes are kept, which is the
inverse of zero-padding the input bytes. -/

/-- Valid base-85 digit character. -/
def isA85Digit (c : Nat) : Bool :=
  33 ≤ c && c ≤ 117

/-- Value of a run of base-85 digit characters (most significant first). -/
def a85value (cs : List Nat) : Nat :=
  cs.foldl (fun acc c => acc * 85 + (c - 33)) 0

/-- Big-endian bytes of a 32-bit group value. -/
def groupBytes (v : Nat) : List Nat :=
  [v / 2 ^ 24 % 256, v / 2 ^ 16 % 256, v / 2 ^ 8 % 256, v % 256]

/-- Decode the body (end marker already stripped). -/
def a85decodeBody : List Nat → Option (List Nat)
  | [] => some []
  | 122 :: rest => (a85decodeBody rest).map (fun bs => [0, 0, 0, 0] ++ bs)
  | c1 :: c2 :: c3 :: c4 :: c5 :: rest =>
    if (([c1, c2, c3, c4, c5]).all isA85Digit) then
      let v := a85value [c1, c2, c3, c4, c5]
      if v < 2 ^ 32 then
        (a85decodeBody rest).map (fun bs => groupBytes v ++ bs)
      else
        none
    else
      none
  | lastGroup =>
    if lastGroup.all isA85Digit && 2 ≤ lastGroup.length then
      let k := lastGroup.length
      let v := a85value (lastGroup ++ List.replicate (5 - k) 117)
      if v < 2 ^ 32 then some ((groupBytes v).take (k - 1)) else none
    else
      none

/-- The spec's Ascii85 decoding: strip the `~>` end marker, then decode
groups; any malformed input (wrong terminator, a character outside the
digit range that is not a `z` shortcut, an out-of-range group value, or a
lone trailing digit) is rejected. -/
def specAscii85Decode (s : List Nat) : Option (List Nat) :=
  if (s.reverse.take 2).reverse = [126, 62] then
    a85decodeBody (s.dropLast.dropLast)
  else
    none

/-! ## The `captureFullPage` loop and the `start-capture` listener

`captureFullPage(meta)` saves `window.scrollX/Y`, then loops
`while (currentY <= maxScrollY + 1)` with `maxScrollY = totalHeight -
viewportHeight`: it scrolls to `(0, currentY)`, awaits the
`capture-viewport` message, breaks on an empty response, pushes
`{ y: currentY, dataUrl }` otherwise, and advances by `viewportHeight`;
after the loop it scrolls back to the saved position.  The `await` on the
capture message can also reject, in which case the exception propagates
out of `captureFullPage` *before* the restoring `scrollTo` runs (there is
no `try`/`finally` inside `captureFullPage`).

The response of one capture request: a data URL (modelled as an opaque
`Nat`), an empty/falsy result, or a rejected promise. -/

inductive CapResponse where
  | ok (dataUrl : Nat)
  | absent
  | exn
  deriving DecidableEq

/-- A captured slice `{ y, dataUrl }`. -/
structure Slice where
  y : Int
  dataUrl : Nat
  deriving DecidableEq

/-- The body of the capture loop, with an explicit iteration budget
(`fuel`) so that the recursion is structural.  `cap` is the external
capture primitive (keyed by the scroll offset of the request), `v` the
viewport height, `maxS` the precomputed `maxScrollY`, `cur` the loop
variable and `acc` the `slices` array.  An error result carries the
scroll position at the moment the exception escaped; a success result is
the collected slice list (the scroll position is then the last one
requested, until the caller restores it).  The fuel-exhausted result
coincides with the guard-false exit, and `capLoopF_fuel` shows the
result does not depend on the fuel once it covers `maxS + 2 - cur`
(which the `capLoop` wrapper supplies); the JavaScript loop does not
terminate for `v = 0`, so every theorem about it assumes `0 < v`. -/
def capLoopF (cap : Int → CapResponse) (v : Nat) (maxS : Int) :
    Nat → Int → List Slice → Except (Int × Int) (List Slice)
  | 0, _, acc => .ok acc
  | fuel + 1, cur, acc =>
    if cur ≤ maxS + 1 then
      match cap cur with
      | .exn => .error (0, cur)
      | .absent => .ok acc
      | .ok d => capLoopF cap v maxS fuel (cur + v) (acc ++ [⟨cur, d⟩])
    else
      .ok acc

/-- The capture loop `while (currentY <= maxScrollY + 1) { ... }`. -/
def capLoop (cap : Int → CapResponse) (v : Nat) (maxS : Int)
    (cur : Int) (acc : List Slice) : Except (Int × Int) (List Slice) :=
  capLoopF cap v maxS (maxS + 2 - cur).toNat cur acc

/-- `captureFullPage`: run the loop from offset 0 and restore the saved
scroll position on the non-throwing paths.  The returned pair is the
final scroll position together with the outcome. -/
def captureFullPage (cap : Int → CapResponse) (totalHeight : Int)
    (v : Nat) (orig : Int × Int) :
    (Int × Int) × Except Unit (List Slice) :=
  match capLoop cap v (totalHeight - v) 0 [] with
  | .error s => (s, .error ())
  | .ok slices => (orig, .ok slices)

/-- Outcome of one `start-capture` handling: the body threw (caught by
the listener's `catch`), or it returned early because no slices were
captured, or it proceeded to stitch the collected slices and deliver the
produced bytes.  Each constructor records the final scroll position. -/
inductive RunOutcome where
  | failed (scroll : Int × Int)
  | aborted (scroll : Int × Int)
  | delivered (slices : List Slice) (scroll : Int × Int)
  deriving DecidableEq

/-- The body of the `start-capture` listener after the guard: capture,
then `if (slices.length === 0) return;`, otherwise stitch the slices and
hand the serialized bytes to the `save-pdf` sink (the stitching, encoding
and serialization steps consume exactly `slices`; they are modelled
downstream and their output is a function of `slices`, so the outcome
records the slice list they receive). -/
def startCaptureRun (cap : Int → CapResponse) (totalHeight : Int)
    (v : Nat) (orig : Int × Int) : RunOutcome :=
  match captureFullPage cap totalHeight v orig with
  | (s, .error ()) => .failed s
  | (s, .ok slices) =>
    if slices.length = 0 then .aborted s else .delivered slices s

/-- The `start-capture` message listener with its `isRunning` guard:
`if (isRunning) return; isRunning = true; try { ...run... } finally
{ isRunning = false; }`.  The result is the guard value after the handler
finishes together with the run outcome it produced (`none` when the
message was ignored). -/
def onStartCapture (isRunning : Bool) (isStartMessage : Bool)
    (cap : Int → CapResponse) (totalHeight : Int) (v : Nat)
    (orig : Int × Int) : Bool × Option RunOutcome :=
  if !isStartMessage then
    (isRunning, none)
  else if isRunning then
    (isRunning, none)
  else
    (false, some (startCaptureRun cap totalHeight v orig))

/-- The sequence of offsets at which tiles are requested when every
request succeeds: the `y` fields of the collected slices. -/
def capturedOffsets (totalHeight : Int) (v : Nat) : List Int :=
  match capLoop (fun _ => .ok 0) v (totalHeight - v) 0 [] with
  | .error _ => []
  | .ok slices => slices.map Slice.y

/-! ## The `stitchImages` compositor

`stitchImages(slices, dpr, cssWidth, cssTotalHeight)` decodes every
slice's data URL into an image (`decode` below, an external primitive
returning natural width and height), takes the first image's dimensions
as `pixelWidth`/`pixelViewportHeight`, allocates a white canvas of
`pixelWidth × round(cssTotalHeight * dpr)`, and for each slice draws the
source rows `[0, srcH)` at destination row `destY = round(y * dpr)`,
where `srcH` is the viewport height clipped to `max 0 (totalPixelHeight -
destY)` when the tile would overflow the canvas; a slice with `srcH ≤ 0`
is skipped. -/

/-- The destination rectangle one slice contributes: `some (destY, srcH)`
when `drawImage` executes, `none` when the slice is skipped. -/
def sliceDraw (pixelViewportHeight : Nat) (totalPixelHeight : Int)
    (dpr : ℚ) (s : Slice) : Option (Int × Int) :=
  let destY := jsRound ((s.y : ℚ) * dpr)
  let remaining := totalPixelHeight - destY
  let srcH : Int :=
    if remaining < (pixelViewportHeight : Int) then max 0 remaining
    else (pixelViewportHeight : Int)
  if 0 < srcH then some (destY, srcH) else none

/-- Result of stitching: output dimensions and the executed draw
rectangles (destination row, row count), in slice order. -/
structure StitchResult where
  pixelWidth : Nat
  pixelViewportHeight : Nat
  totalPixelHeight : Int
  draws : List (Int × Int)
  deriving DecidableEq

/-- `stitchImages`.  An empty slice list makes the JavaScript code fault
on `images[0].naturalWidth` (modelled as `none`). -/
def stitchImages (slices : List Slice) (decode : Nat → Nat × Nat)
    (dpr cssTotalHeight : ℚ) : Option StitchResult :=
  match slices with
  | [] => none
  | s0 :: _ =>
    let pixelWidth := (decode s0.dataUrl).1
    let pixelViewportHeight := (decode s0.dataUrl).2
    let totalPixelHeight := jsRound (cssTotalHeight * dpr)
    some
      { pixelWidth := pixelWidth
        pixelViewportHeight := pixelViewportHeight
        totalPixelHeight := totalPixelHeight
        draws := slices.filterMap (sliceDraw pixelViewportHeight totalPixelHeight dpr) }

/-! ## The `MinimalPdf` writer

JavaScript strings are modelled as lists of UTF-16 code units.  Every
string the program builds is free of surrogate code units (its
characters are either ASCII or, through the broken Ascii85 encoder, in
`0xFF8D`–`0xFFFF`), so `TextEncoder#encode` is exactly per-code-point
UTF-8, modelled by `utf8Bytes`. -/

/-- Code units of a Lean string literal (all literals used here are
ASCII). -/
def strLit (s : String) : List Nat :=
  s.data.map Char.toNat

/-- Decimal digits helper: fuel-indexed division loop (the fuel `n`
always suffices since a positive number has at most `n` digits). -/
def natToDecAux : Nat → Nat → List Nat
  | 0, _ => []
  | _ + 1, 0 => []
  | fuel + 1, n => natToDecAux fuel (n / 10) ++ [n % 10 + 48]

/-- `n.toString()` for a natural number: decimal digit characters. -/
def natToDec (n : Nat) : List Nat :=
  if n = 0 then [48] else natToDecAux n n

/-- `${x}` for an integer-valued JavaScript number. -/
def intToDec (i : Int) : List Nat :=
  if i < 0 then 45 :: natToDec (-i).toNat else natToDec i.toNat

/-- UTF-8 bytes of one code point. -/
def utf8Bytes (c : Nat) : List Nat :=
  if c < 0x80 then [c]
  else if c < 0x800 then [0xC0 + c / 64, 0x80 + c % 64]
  else if c < 0x10000 then [0xE0 + c / 4096, 0x80 + c / 64 % 64, 0x80 + c % 64]
  else [0xF0 + c / 262144, 0x80 + c / 4096 % 64, 0x80 + c / 64 % 64, 0x80 + c % 64]

/-- `encodePdfString` from `src/popup.js`: UTF-8 bytes of the string. -/
def encodePdfString (s : List Nat) : List Nat :=
  (s.map utf8Bytes).flatten

/-- One registered object `{ id, str }`. -/
structure PdfObj where
  id : Nat
  str : List Nat
  deriving DecidableEq

/-- The `MinimalPdf` instance state: `objects`, `pages`, the `nextId`
counter and the two IDs reserved by the constructor. -/
structure MinimalPdf where
  objects : List PdfObj
  pages : List Nat
  nextId : Nat
  catalogId : Nat
  pagesId : Nat
  deriving DecidableEq

/-- `new MinimalPdf()`: the constructor draws `catalogId = 1` and
`pagesId = 2` from the counter, leaving `nextId = 3`. -/
def MinimalPdf.new : MinimalPdf :=
  { objects := [], pages := [], nextId := 3, catalogId := 1, pagesId := 2 }

/-- `addObject(str)`: append `{ id: nextId, str }` and return the id. -/
def MinimalPdf.addObject (p : MinimalPdf) (s : List Nat) : MinimalPdf × Nat :=
  ({ p with objects := p.objects ++ [⟨p.nextId, s⟩], nextId := p.nextId + 1 },
    p.nextId)

/-- `addJpegImage(jpegBytes, width, height)`: register the image XObject
whose stream is the Ascii85 encoding of the JPEG bytes; the declared
`/Length` is the length of the encoded string (UTF-16 units). -/
def MinimalPdf.addJpegImage (p : MinimalPdf) (jpegBytes : List Nat)
    (width height : Nat) : MinimalPdf × Nat :=
  let ascii85 := ascii85Encode jpegBytes
  let dict := strLit "<< /Type /XObject /Subtype /Image /Width " ++
    natToDec width ++ strLit " /Height " ++ natToDec height ++
    strLit " /ColorSpace /DeviceRGB /BitsPerComponent 8 /Filter [/ASCII85Decode /DCTDecode] /Length " ++
    natToDec ascii85.length ++ strLit " >>"
  p.addObject (dict ++ strLit "\nstream\n" ++ ascii85 ++ strLit "\nendstream")

/-- `addPageWithImage(imageObjectId, width, height)`: register the
content stream, the resources dictionary and the page object, and push
the page id. -/
def MinimalPdf.addPageWithImage (p : MinimalPdf) (imageObjectId : Nat)
    (width height : Int) : MinimalPdf :=
  let content := strLit "q\n" ++ intToDec width ++ strLit " 0 0 " ++
    intToDec height ++ strLit " 0 0 cm\n/Im1 Do\nQ\n"
  let r1 := p.addObject (strLit "<< /Length " ++ natToDec content.length ++
    strLit " >>\nstream\n" ++ content ++ strLit "\nendstream")
  let r2 := r1.1.addObject (strLit "<< /XObject << /Im1 " ++
    natToDec imageObjectId ++
    strLit " 0 R >> /ProcSet [/PDF /ImageB /ImageC /ImageI] >>")
  let r3 := r2.1.addObject (strLit "<< /Type /Page /Parent " ++
    natToDec p.pagesId ++ strLit " 0 R /MediaBox [0 0 " ++ intToDec width ++
    strLit " " ++ intToDec height ++ strLit "] /Contents " ++
    natToDec r1.2 ++ strLit " 0 R /Resources " ++ natToDec r2.2 ++
    strLit " 0 R >>")
  { r3.1 with pages := r3.1.pages ++ [r3.2] }

/-- The emitted block of one object: `` `${id} 0 obj\n${str}\nendobj\n` ``. -/
def objBlock (o : PdfObj) : List Nat :=
  natToDec o.id ++ strLit " 0 obj\n" ++ o.str ++ strLit "\nendobj\n"

/-- The object-emission loop of `serialize`: starting from byte offset
`off`, return the concatenated encoded blocks and the recorded
`positions`. -/
def emitObjs : Nat → List PdfObj → List Nat × List Nat
  | _, [] => ([], [])
  | off, o :: rest =>
    let b := encodePdfString (objBlock o)
    let r := emitObjs (off + b.length) rest
    (b ++ r.1, off :: r.2)

/-- The header line `%PDF-1.4\n`, encoded. -/
def pdfHeader : List Nat :=
  encodePdfString (strLit "%PDF-1.4\n")

/-- The object list `serialize` walks: the two `unshift` calls place the
catalog then the page tree (finalized with the kid list and count) in
front of the registered objects. -/
def MinimalPdf.finalObjects (p : MinimalPdf) : List PdfObj :=
  let kids := (List.intersperse (strLit " ") (p.pages.map
    (fun id => natToDec id ++ strLit " 0 R"))).flatten
  let pagesObj := strLit "<< /Type /Pages /Kids [ " ++ kids ++
    strLit " ] /Count " ++ natToDec p.pages.length ++ strLit " >>"
  let catalogObj := strLit "<< /Type /Catalog /Pages " ++
    natToDec p.pagesId ++ strLit " 0 R >>"
  ⟨p.catalogId, catalogObj⟩ :: ⟨p.pagesId, pagesObj⟩ :: p.objects

/-- The recorded byte offsets of the objects (the `positions` array). -/
def MinimalPdf.positions (p : MinimalPdf) : List Nat :=
  (emitObjs pdfHeader.length p.finalObjects).2

/-- One cross-reference entry:
`` `${pos.toString().padStart(10, '0')} 00000 n \n` ``. -/
def xrefLine (pos : Nat) : List Nat :=
  List.replicate (10 - (natToDec pos).length) 48 ++ natToDec pos ++
    strLit " 00000 n \n"

/-- The cross-reference section, trailer and footer of `serialize`. -/
def MinimalPdf.xrefSection (p : MinimalPdf) : List Nat :=
  let n := p.finalObjects.length
  let xrefStart := pdfHeader.length + (emitObjs pdfHeader.length p.finalObjects).1.length
  encodePdfString (strLit "xref\n0 " ++ natToDec (n + 1) ++ strLit "\n") ++
  encodePdfString (strLit "0000000000 65535 f \n") ++
  encodePdfString ((p.positions.map xrefLine).flatten) ++
  encodePdfString (strLit "trailer\n<< /Size " ++ natToDec (n + 1) ++
    strLit " /Root " ++ natToDec p.catalogId ++
    strLit " 0 R >>\nstartxref\n" ++ natToDec xrefStart ++ strLit "\n%%EOF")

/-- `serialize()`: header, object blocks, then the cross-reference
section; the result is the flat byte buffer. -/
def MinimalPdf.serialize (p : MinimalPdf) : List Nat :=
  pdfHeader ++ (emitObjs pdfHeader.length p.finalObjects).1 ++ p.xrefSection

/-- Well-formedness of a `MinimalPdf` produced through the constructor
and `addObject`: reserved IDs 1 and 2, and registered object `i` has id
`i + 3`. -/
def MinimalPdf.WF (p : MinimalPdf) : Prop :=
  p.catalogId = 1 ∧ p.pagesId = 2 ∧ p.nextId = p.objects.length + 3 ∧
    ∀ i, (h : i < p.objects.length) → (p.objects.get ⟨i, h⟩).id = i + 3

/-! ## `createPdfFromCanvas` page geometry -/

/-- The `maxPdfDimension` check and downscale of `createPdfFromCanvas`:
when either pixel dimension exceeds 14400, both page dimensions are
scaled by `min(14400 / pixelWidth, 14400 / pixelHeight)` and rounded. -/
def pdfScaledDims (pixelWidth pixelHeight : Nat) : Int × Int :=
  if 14400 < pixelWidth ∨ 14400 < pixelHeight then
    let scale : ℚ := min (14400 / (pixelWidth : ℚ)) (14400 / (pixelHeight : ℚ))
    (jsRound (pixelWidth * scale), jsRound (pixelHeight * scale))
  else
    ((pixelWidth : Int), (pixelHeight : Int))

/-- `createPdfFromCanvas` (document-construction part): the canvas is
re-encoded to JPEG by the external codec (`jpegData`), the image object
is added with the *pixel* dimensions, and the page with the (possibly
downscaled) *page* dimensions. -/
def createPdfFromCanvas (jpegData : List Nat) (pixelWidth pixelHeight : Nat) :
    MinimalPdf :=
  let dims := pdfScaledDims pixelWidth pixelHeight
  let r := MinimalPdf.new.addJpegImage jpegData pixelWidth pixelHeight
  r.1.addPageWithImage r.2 dims.1 dims.2

/-! ## Loop unfolding lemmas -/

/-- For a positive step, any fuel at least `maxS + 2 - cur` yields the
same result: the budget in `capLoop` is irrelevant to the semantics. -/
theorem capLoopF_fuel (cap : Int → CapResponse) (v : Nat) (maxS : Int)
    (hv : 0 < v) :
    ∀ (fuel fuel' : Nat) (cur : Int) (acc : List Slice),
      (maxS + 2 - cur).toNat ≤ fuel → (maxS + 2 - cur).toNat ≤ fuel' →
      capLoopF cap v maxS fuel cur acc = capLoopF cap v maxS fuel' cur acc := by
  intro fuel
  induction fuel with
  | zero =>
    intro fuel' cur acc hf hf'
    have hgt : ¬ (cur ≤ maxS + 1) := by omega
    match fuel' with
    | 0 => rfl
    | f' + 1 => simp [capLoopF, hgt]
  | succ fuel ih =>
    intro fuel' cur acc hf hf'
    match fuel' with
    | 0 =>
      have hgt : ¬ (cur ≤ maxS + 1) := by omega
      simp [capLoopF, hgt]
    | f' + 1 =>
      simp only [capLoopF]
      by_cases hle : cur ≤ maxS + 1
      · simp only [hle, if_pos]
        match cap cur with
        | .exn => rfl
        | .absent => rfl
        | .ok d => exact ih f' (cur + v) (acc ++ [⟨cur, d⟩]) (by omega) (by omega)
      · simp [hle]

/-- One unfolding of the loop while the guard holds. -/
theorem capLoop_step (cap : Int → CapResponse) (v : Nat) (maxS : Int)
    (cur : Int) (acc : List Slice) (hv : 0 < v) (hle : cur ≤ maxS + 1) :
    capLoop cap v maxS cur acc =
      match cap cur with
      | .exn => .error (0, cur)
      | .absent => .ok acc
      | .ok d => capLoop cap v maxS (cur + v) (acc ++ [⟨cur, d⟩]) := by
  unfold capLoop
  have h1 : (maxS + 2 - cur).toNat = ((maxS + 2 - cur).toNat - 1) + 1 := by omega
  rw [h1]
  simp only [capLoopF, hle, if_pos]
  match cap cur with
  | .exn => rfl
  | .absent => rfl
  | .ok d =>
    show capLoopF cap v maxS ((maxS + 2 - cur).toNat - 1) (cur + v)
        (acc ++ [⟨cur, d⟩]) =
      capLoopF cap v maxS (maxS + 2 - (cur + v)).toNat (cur + v)
        (acc ++ [⟨cur, d⟩])
    exact capLoopF_fuel cap v maxS hv ((maxS + 2 - cur).toNat - 1)
      (maxS + 2 - (cur + v)).toNat (cur + v) (acc ++ [⟨cur, d⟩])
      (by omega) (by omega)

/-- The loop exits returning the accumulator once the guard fails. -/
theorem capLoop_stop (cap : Int → CapResponse) (v : Nat) (maxS : Int)
    (cur : Int) (acc : List Slice) (hgt : maxS + 1 < cur) :
    capLoop cap v maxS cur acc = .ok acc := by
  unfold capLoop
  have h0 : (maxS + 2 - cur).toNat = 0 := by omega
  rw [h0]
  rfl

/-! ## Claims C1 and C2: the Ascii85 encoder -/

/-- C1.  The claim states `ascii85_decode (ascii85_encode b) = b` for every
byte sequence `b`.  It fails on the code: (a) for any 4-byte group whose
32-bit big-endian value is at least `2^31` (e.g. `[128, 0, 0, 0]`, and the
leading `FF D8` marker of every JPEG stream), `(tuple << 8) | b` wraps to a
negative Int32, `tuple % 85` is negative, and `String.fromCharCode` emits
code units far outside the base-85 alphabet, so the spec's decoding rejects
the output; (b) for a final partial group (e.g. `[1, 2, 3]`) the code emits
the *least*-significant `count + 1` base-85 digits instead of the first
`n + 1` of the 5 digits, so even an in-alphabet output decodes to different
bytes.  The empty sequence does encode to just the end marker. -/
theorem ascii85_roundtrip_fails :
    specAscii85Decode (ascii85Encode [128, 0, 0, 0]) = none ∧
    specAscii85Decode (ascii85Encode [1, 2, 3]) ≠ some [1, 2, 3] ∧
    ascii85Encode [] = [126, 62] := by
  refine ⟨by decide, by decide, by decide⟩

/-- C2.  The claim states that `ascii85Encode` equals the spec's reference
encoding.  It fails on the code at the two-byte input `[255, 216]` (the
JPEG start-of-image marker): the reference yields the digit characters
`s4@` while the code, after the signed-32-bit wraparound of `tuple <<= 8`
and the sign-following `%`, yields code units `[10, 65498, 65529]`, two of
which cannot even appear in a JavaScript one-byte string and all of which
lie outside the base-85 alphabet the code itself checks for
(`/[^\x21-\x7E~>]/`).  The same theorem records the second divergence: on
`[1, 2, 3]` (no sign overflow involved) the code keeps the low digits of
the padded group rather than the spec's first `n + 1` digits. -/
theorem ascii85_encode_ne_reference :
    ascii85Encode [255, 216] ≠ refAscii85Encode [255, 216] ∧
    (ascii85Encode [255, 216]).any (fun c => 117 < c && c ≠ 122) = true ∧
    ascii85Encode [1, 2, 3] ≠ refAscii85Encode [1, 2, 3] := by
  refine ⟨by decide, by decide, by decide⟩

/-! ## Claims C3, C4, C5, C6: the capture loop and its listener -/

/-- If the capture primitive answers the `k` requests at offsets
`cur, cur + v, …, cur + (k-1)·v` with data and the request at
`cur + k·v` (still within the loop bound) with an empty response, the
loop returns the accumulator extended by exactly those `k` slices. -/
theorem capLoop_absent_run (cap : Int → CapResponse) (v : Nat) (hv : 0 < v)
    (maxS : Int) :
    ∀ (k : Nat) (ds : Nat → Nat) (cur : Int) (acc : List Slice),
      (∀ i, i < k → cap (cur + (i * v : Nat)) = .ok (ds i)) →
      cap (cur + (k * v : Nat)) = .absent →
      cur + (k * v : Nat) ≤ maxS + 1 →
      capLoop cap v maxS cur acc =
        .ok (acc ++ (List.range k).map (fun i => ⟨cur + (i * v : Nat), ds i⟩)) := by
  intro k
  induction k with
  | zero =>
    intro ds cur acc _ habs hle
    simp only [Nat.zero_mul, Nat.cast_zero, add_zero] at habs hle
    rw [capLoop_step cap v maxS cur acc hv hle, habs]
    simp
  | succ k ih =>
    intro ds cur acc hok habs hle
    have h0 : cap cur = .ok (ds 0) := by
      have := hok 0 (Nat.succ_pos k)
      simpa using this
    have hcur : cur ≤ maxS + 1 := by
      have : (0 : Int) ≤ ((k + 1) * v : Nat) := Int.ofNat_nonneg _
      omega
    rw [capLoop_step cap v maxS cur acc hv hcur, h0]
    have harg : ∀ i : Nat, cur + ((i + 1) * v : Nat) = (cur + v) + (i * v : Nat) := by
      intro i; push_cast; ring
    have hrec := ih (fun i => ds (i + 1)) (cur + v) (acc ++ [⟨cur, ds 0⟩])
      (fun i hi => by rw [← harg i]; exact hok (i + 1) (by omega))
      (by rw [← harg k]; exact habs)
      (by rw [← harg k]; exact hle)
    show capLoop cap v maxS (cur + v) (acc ++ [⟨cur, ds 0⟩]) = _
    rw [hrec]
    rw [List.append_assoc]
    congr 1
    rw [List.range_succ_eq_map, List.map_cons, List.map_map]
    simp only [Nat.zero_mul, Nat.cast_zero, add_zero, List.cons_append, List.nil_append]
    congr 1
    congr 1
    refine List.map_congr_left ?_
    intro a _
    simp only [Function.comp_apply, Nat.succ_eq_add_one]
    rw [← harg a]

/-- If the capture primitive answers the requests at offsets
`cur, …, cur + (k-1)·v` (all within the loop bound) with data and the
next offset `cur + k·v` falls outside the bound, the loop terminates
normally with exactly those `k` slices appended. -/
theorem capLoop_ok_run (cap : Int → CapResponse) (v : Nat) (hv : 0 < v)
    (maxS : Int) :
    ∀ (k : Nat) (ds : Nat → Nat) (cur : Int) (acc : List Slice),
      (∀ i, i < k → cap (cur + (i * v : Nat)) = .ok (ds i)) →
      (∀ i, i < k → cur + (i * v : Nat) ≤ maxS + 1) →
      maxS + 1 < cur + (k * v : Nat) →
      capLoop cap v maxS cur acc =
        .ok (acc ++ (List.range k).map (fun i => ⟨cur + (i * v : Nat), ds i⟩)) := by
  intro k
  induction k with
  | zero =>
    intro ds cur acc _ _ hstop
    simp only [Nat.zero_mul, Nat.cast_zero, add_zero] at hstop
    simp [capLoop_stop cap v maxS cur acc hstop]
  | succ k ih =>
    intro ds cur acc hok hbnd hstop
    have h0 : cap cur = .ok (ds 0) := by
      have := hok 0 (Nat.succ_pos k)
      simpa using this
    have hcur : cur ≤ maxS + 1 := by
      have := hbnd 0 (Nat.succ_pos k)
      simpa using this
    rw [capLoop_step cap v maxS cur acc hv hcur, h0]
    have harg : ∀ i : Nat, cur + ((i + 1) * v : Nat) = (cur + v) + (i * v : Nat) := by
      intro i; push_cast; ring
    have hrec := ih (fun i => ds (i + 1)) (cur + v) (acc ++ [⟨cur, ds 0⟩])
      (fun i hi => by rw [← harg i]; exact hok (i + 1) (by omega))
      (fun i hi => by rw [← harg i]; exact hbnd (i + 1) (by omega))
      (by rw [← harg k]; exact hstop)
    show capLoop cap v maxS (cur + v) (acc ++ [⟨cur, ds 0⟩]) = _
    rw [hrec]
    rw [List.append_assoc]
    congr 1
    rw [List.range_succ_eq_map, List.map_cons, List.map_map]
    simp only [Nat.zero_mul, Nat.cast_zero, add_zero, List.cons_append, List.nil_append]
    congr 1
    congr 1
    refine List.map_congr_left ?_
    intro a _
    simp only [Function.comp_apply, Nat.succ_eq_add_one]
    rw [← harg a]

/-- When the capture primitive never rejects, the loop terminates with a
slice list (no exception escapes). -/
theorem capLoopF_no_exn (cap : Int → CapResponse) (v : Nat) (maxS : Int)
    (h : ∀ y, cap y ≠ .exn) :
    ∀ (fuel : Nat) (cur : Int) (acc : List Slice),
      ∃ sl, capLoopF cap v maxS fuel cur acc = .ok sl := by
  intro fuel
  induction fuel with
  | zero => intro cur acc; exact ⟨acc, rfl⟩
  | succ fuel ih =>
    intro cur acc
    by_cases hle : cur ≤ maxS + 1
    · simp only [capLoopF, hle, if_pos]
      match hcap : cap cur with
      | .exn => exact absurd hcap (h cur)
      | .absent => exact ⟨acc, rfl⟩
      | .ok d => exact ih (cur + v) (acc ++ [⟨cur, d⟩])
    · exact ⟨acc, by simp [capLoopF, hle]⟩

/-- When the capture primitive never rejects, the loop terminates with a
slice list (no exception escapes). -/
theorem capLoop_no_exn (cap : Int → CapResponse) (v : Nat)
    (maxS : Int) (h : ∀ y, cap y ≠ .exn) :
    ∀ cur acc, ∃ sl, capLoop cap v maxS cur acc = .ok sl := by
  intro cur acc
  exact capLoopF_no_exn cap v maxS h _ cur acc

/-- C3, counterexample.  The claim (and the spec's worked example) says the
metrics `viewportHeight = 800`, `totalHeight = 1801`, `dpr = 1` yield the
three offsets `[0, 800, 1600]`.  The loop guard is
`currentY ≤ maxScrollY + 1` with `maxScrollY = 1801 - 800 = 1001`, and
`1600 > 1002`, so the third request never happens: the code requests
`[0, 800]` only and the bottom 201 CSS pixels are never captured. -/
theorem captureOffsets_example_ne :
    capturedOffsets 1801 800 ≠ [0, 800, 1600] := by
  decide

/-- C3, amended.  For `viewportHeight = 800, totalHeight = 1801, dpr = 1`
the capture loop requests tiles at exactly the offsets `[0, 800]` (two
tiles: the loop stops because the next offset `1600` exceeds
`maxOffset (1001) + 1`); the stitched raster height equals `1801`
pixels; and the last tile is *not* clipped — its destination row is
`800`, the remaining `1001` rows exceed the `800`-row tile, so its full
height is copied (rows `1601`–`1800` of the raster stay background). -/
theorem captureOffsets_example_eq :
    capturedOffsets 1801 800 = [0, 800] ∧
    startCaptureRun (fun _ => .ok 7) 1801 800 (3, 5) =
      .delivered [⟨0, 7⟩, ⟨800, 7⟩] (3, 5) ∧
    stitchImages [⟨0, 7⟩, ⟨800, 7⟩] (fun _ => (1280, 800)) 1 1801 =
      some ⟨1280, 800, 1801, [(0, 800), (800, 800)]⟩ := by
  refine ⟨by decide, by decide, ?_⟩
  norm_num [stitchImages, sliceDraw, jsRound, List.filterMap]

/-- C4, counterexample.  The claim says a run in which the second tile
request returns an empty result fails as a whole, with the collected
tiles discarded and no output produced.  In the code the empty response
only `break`s the loop; the listener aborts *only* when zero slices were
collected, so with `totalHeight = 1601, viewportHeight = 800` and a
primitive that answers offset `0` and returns nothing at offset `800`,
the run proceeds and delivers output stitched from the single collected
tile — a partial-result success. -/
theorem captureRun_partial_delivery :
    startCaptureRun (fun y => if y = 0 then .ok 7 else .absent) 1601 800
      (0, 0) = .delivered [⟨0, 7⟩] (0, 0) := by
  decide

/-- C4, amended.  An empty tile response aborts the capture *loop*
immediately, but not the run: the run fails (producing nothing) only
when the very first response was empty; otherwise the tiles collected
before the failure are kept and the run proceeds to stitch them and
deliver output produced from that prefix. -/
theorem captureRun_absent_prefix (cap : Int → CapResponse) (total : Int)
    (v : Nat) (hv : 0 < v) (orig : Int × Int) (k : Nat) (ds : Nat → Nat)
    (hok : ∀ i, i < k → cap ((i * v : Nat)) = .ok (ds i))
    (habs : cap ((k * v : Nat)) = .absent)
    (hle : ((k * v : Nat) : Int) ≤ (total - v) + 1) :
    startCaptureRun cap total v orig =
      if k = 0 then .aborted orig
      else .delivered ((List.range k).map (fun i => ⟨((i * v : Nat) : Int), ds i⟩)) orig := by
  unfold startCaptureRun captureFullPage
  have hrun := capLoop_absent_run cap v hv (total - v) k ds 0 []
    (fun i hi => by simpa using hok i hi) (by simpa using habs) (by simpa using hle)
  rw [hrun]
  by_cases hk : k = 0
  · subst hk; simp
  · simp only [List.nil_append, List.length_map, List.length_range, hk, if_neg]
    simp [hk]

/-- Witness for `captureRun_absent_prefix` (`k = 1`: first request
answered, second empty). -/
theorem captureRun_absent_prefix_witness :
    startCaptureRun (fun y => if y = 0 then .ok 9 else .absent) 1601 800
      (4, 6) = .delivered [⟨0, 9⟩] (4, 6) := by
  have h := captureRun_absent_prefix (fun y => if y = 0 then .ok 9 else .absent)
    1601 800 (by norm_num) (4, 6) 1 (fun _ => 9)
    (by intro i hi; have h0 : i = 0 := (by omega); subst h0; decide)
    (by norm_num)
    (by norm_num)
  simpa using h

/-- C5, counterexample.  The claim says the scroll position is restored
on *every* exit path, as if by a guaranteed cleanup block.
`captureFullPage` has no `try`/`finally`: when the awaited
`capture-viewport` message rejects, the exception propagates before the
restoring `scrollTo`, so a run started at scroll position `(3, 7)` whose
first capture request throws ends with the scroll at `(0, 0)` — the
offset the loop had just scrolled to — not at `(3, 7)`. -/
theorem captureFullPage_exn_no_restore :
    (captureFullPage (fun _ => .exn) 100 50 (3, 7)).1 ≠ (3, 7) := by
  decide

/-- C5, amended.  The scroll position is restored to its pre-run value on
every exit path that does not throw out of the capture loop: on success
and on the empty-tile abort the trailing `scrollTo(originalScrollX,
originalScrollY)` runs; only a rejected capture request skips it. -/
theorem captureFullPage_restores_scroll (cap : Int → CapResponse)
    (total : Int) (v : Nat) (orig : Int × Int)
    (hnoexn : ∀ y, cap y ≠ .exn) :
    (captureFullPage cap total v orig).1 = orig := by
  obtain ⟨sl, hsl⟩ := capLoop_no_exn cap v (total - v) hnoexn 0 []
  unfold captureFullPage
  rw [hsl]

/-- Witness for `captureFullPage_restores_scroll`: a run whose second
request is empty still restores `(3, 7)`. -/
theorem captureFullPage_restores_scroll_witness :
    (captureFullPage (fun y => if y = 0 then .ok 9 else .absent) 1601 800
      (3, 7)).1 = (3, 7) :=
  captureFullPage_restores_scroll (fun y => if y = 0 then .ok 9 else .absent)
    1601 800 (3, 7)
    (by intro y; by_cases h : y = 0 <;> simp [h])

/-- C6.  The `isRunning` guard makes a `start-capture` message received
while a run is in progress a strict no-op: the handler returns before
touching anything, produces no new result, and in particular never
reaches the capture loop, so the in-progress run's slice list (local to
that run's invocation) is neither modified nor duplicated.  A fresh
invocation runs the body with the guard released (`finally`) on its
exit, whatever the body's outcome, so the next invocation can start; a
non-`start-capture` message is ignored. -/
theorem runGuard_reentrant_noop (cap : Int → CapResponse) (total : Int)
    (v : Nat) (orig : Int × Int) :
    onStartCapture true true cap total v orig = (true, none) ∧
    onStartCapture false true cap total v orig =
      (false, some (startCaptureRun cap total v orig)) ∧
    onStartCapture true false cap total v orig = (true, none) :=
  ⟨rfl, rfl, rfl⟩

/-- Witness for `runGuard_reentrant_noop` (C6's statement quantifies
only over data, but the instance below records a concrete no-op). -/
theorem runGuard_reentrant_noop_witness :
    onStartCapture true true (fun _ => .ok 0) 100 10 (0, 0) =
      (true, none) :=
  (runGuard_reentrant_noop (fun _ => .ok 0) 100 10 (0, 0)).1

/-! ## Claim C7: stitching bounds -/

/-- The two clipping cases of one slice's draw: when the tile would
overflow the canvas the copied height is clipped to
`totalPixelHeight - destY` (skipped when that is not positive); when it
fits, the full viewport height is copied. -/
theorem sliceDraw_cases (pvh : Nat) (total : Int) (dpr : ℚ) (s : Slice) :
    (total < jsRound ((s.y : ℚ) * dpr) + (pvh : Int) →
      sliceDraw pvh total dpr s =
        if 0 < total - jsRound ((s.y : ℚ) * dpr) then
          some (jsRound ((s.y : ℚ) * dpr), total - jsRound ((s.y : ℚ) * dpr))
        else none) ∧
    (jsRound ((s.y : ℚ) * dpr) + (pvh : Int) ≤ total →
      sliceDraw pvh total dpr s =
        if 0 < (pvh : Int) then
          some (jsRound ((s.y : ℚ) * dpr), (pvh : Int)) else none) := by
  unfold sliceDraw
  constructor
  · intro hover
    have hlt : total - jsRound ((s.y : ℚ) * dpr) < (pvh : Int) := by omega
    simp only [hlt, if_pos]
    by_cases hpos : 0 < total - jsRound ((s.y : ℚ) * dpr)
    · rw [max_eq_right (by omega : (0:Int) ≤ total - jsRound ((s.y : ℚ) * dpr))]
    · rw [max_eq_left (by omega : total - jsRound ((s.y : ℚ) * dpr) ≤ 0)]
      simp [hpos]
  · intro hfit
    have hge : ¬ (total - jsRound ((s.y : ℚ) * dpr) < (pvh : Int)) := by omega
    simp only [hge, if_neg, if_false]

/-- Any executed draw of a slice with a non-negative offset lands fully
inside the destination rows `[0, totalPixelHeight)`. -/
theorem sliceDraw_in_bounds (pvh : Nat) (total : Int) (dpr : ℚ) (s : Slice)
    (hdpr : 0 ≤ dpr) (hy : 0 ≤ s.y) (d : Int × Int)
    (hd : sliceDraw pvh total dpr s = some d) :
    0 ≤ d.1 ∧ 0 < d.2 ∧ d.1 + d.2 ≤ total := by
  have hdest : 0 ≤ jsRound ((s.y : ℚ) * dpr) := by
    unfold jsRound
    have : (0 : ℚ) ≤ (s.y : ℚ) * dpr :=
      mul_nonneg (by exact_mod_cast hy) hdpr
    have h2 : (0 : ℚ) ≤ (s.y : ℚ) * dpr + 1 / 2 := by linarith
    exact Int.le_floor.mpr (by exact_mod_cast h2)
  unfold sliceDraw at hd
  by_cases hc : total - jsRound ((s.y : ℚ) * dpr) < (pvh : Int)
  · simp only [hc, if_pos] at hd
    by_cases hp : (0 : Int) < max 0 (total - jsRound ((s.y : ℚ) * dpr))
    · simp only [hp, if_pos, Option.some_inj] at hd
      subst hd
      refine ⟨hdest, hp, ?_⟩
      simp only
      omega
    · simp [hp] at hd
  · simp only [hc, if_neg, if_false] at hd
    by_cases hp : (0 : Int) < (pvh : Int)
    · simp only [hp, if_pos, Option.some_inj] at hd
      subst hd
      refine ⟨hdest, hp, by simp only; omega⟩
    · simp [hp] at hd

/-- C7.  For every non-empty slice list (with non-negative offsets and a
non-negative device pixel ratio): the output height is
`round(cssTotalHeight * dpr)`; the executed draws are exactly the
slices' `sliceDraw` rectangles; every executed draw writes only rows
inside `[0, pixelHeight)`; and each slice follows the claimed rule —
full viewport height unless `destY + tileHeight` exceeds the output
height, in which case the copied height is clipped to
`pixelHeight - destY`, with a non-positive clipped height drawing
nothing. -/
theorem stitch_writes_in_bounds (slices : List Slice) (decode : Nat → Nat × Nat)
    (dpr cssTotalHeight : ℚ) (r : StitchResult)
    (hdpr : 0 ≤ dpr) (hy : ∀ s ∈ slices, 0 ≤ s.y)
    (hr : stitchImages slices decode dpr cssTotalHeight = some r) :
    r.totalPixelHeight = jsRound (cssTotalHeight * dpr) ∧
    r.draws = slices.filterMap (sliceDraw r.pixelViewportHeight r.totalPixelHeight dpr) ∧
    (∀ d ∈ r.draws, 0 ≤ d.1 ∧ 0 < d.2 ∧ d.1 + d.2 ≤ r.totalPixelHeight) ∧
    (∀ s ∈ slices,
      (r.totalPixelHeight < jsRound ((s.y : ℚ) * dpr) + (r.pixelViewportHeight : Int) →
        sliceDraw r.pixelViewportHeight r.totalPixelHeight dpr s =
          if 0 < r.totalPixelHeight - jsRound ((s.y : ℚ) * dpr) then
            some (jsRound ((s.y : ℚ) * dpr),
              r.totalPixelHeight - jsRound ((s.y : ℚ) * dpr))
          else none) ∧
      (jsRound ((s.y : ℚ) * dpr) + (r.pixelViewportHeight : Int) ≤ r.totalPixelHeight →
        sliceDraw r.pixelViewportHeight r.totalPixelHeight dpr s =
          if 0 < (r.pixelViewportHeight : Int) then
            some (jsRound ((s.y : ℚ) * dpr), (r.pixelViewportHeight : Int))
          else none)) := by
  match slices, hy with
  | s0 :: rest, hy =>
    simp only [stitchImages, Option.some_inj] at hr
    subst hr
    refine ⟨rfl, rfl, ?_, ?_⟩
    · intro d hd
      simp only [List.mem_filterMap] at hd
      obtain ⟨s, hs, hdraw⟩ := hd
      exact sliceDraw_in_bounds _ _ _ _ hdpr (hy s hs) d hdraw
    · intro s hs
      exact ⟨(sliceDraw_cases _ _ _ _).1, (sliceDraw_cases _ _ _ _).2⟩

/-- Witness for `stitch_writes_in_bounds`: two 800-row tiles into a
1000-row canvas — the second tile, at destination row 800, is clipped to
200 source rows. -/
theorem stitch_writes_in_bounds_witness :
    sliceDraw 800 1000 1 ⟨800, 1⟩ = some (800, 200) := by
  have h := stitch_writes_in_bounds [⟨0, 1⟩, ⟨800, 1⟩] (fun _ => (100, 800)) 1 1000
    ⟨100, 800, 1000, [(0, 800), (800, 200)]⟩ (by norm_num)
    (by intro s hs; fin_cases hs <;> norm_num)
    (by norm_num [stitchImages, sliceDraw, jsRound, List.filterMap])
  have h4 := (h.2.2.2 ⟨800, 1⟩ (by simp)).1
  norm_num [jsRound] at h4
  exact h4

/-! ## Claims C8, C9, C10: the document writer -/

/-- UTF-8 encoding distributes over string concatenation (so per-`write`
encoding and whole-string encoding agree, and byte offsets compose). -/
theorem encodePdfString_append (a b : List Nat) :
    encodePdfString (a ++ b) = encodePdfString a ++ encodePdfString b := by
  simp [encodePdfString]

/-- One position is recorded per emitted object. -/
theorem emitObjs_pos_length (objs : List PdfObj) :
    ∀ off, (emitObjs off objs).2.length = objs.length := by
  induction objs with
  | nil => intro off; rfl
  | cons o rest ih =>
    intro off
    simp only [emitObjs, List.length_cons]
    rw [ih]

/-- The `k`-th recorded position is at least the starting offset, within
the emitted bytes, and dropping to it lands exactly on the encoded block
of the `k`-th object. -/
theorem emitObjs_get (objs : List PdfObj) :
    ∀ (off k : Nat) (hk : k < objs.length)
      (hp : k < (emitObjs off objs).2.length),
      off ≤ (emitObjs off objs).2.get ⟨k, hp⟩ ∧
      (emitObjs off objs).2.get ⟨k, hp⟩ - off ≤ (emitObjs off objs).1.length ∧
      ∃ tail, (emitObjs off objs).1.drop ((emitObjs off objs).2.get ⟨k, hp⟩ - off) =
        encodePdfString (objBlock (objs.get ⟨k, hk⟩)) ++ tail := by
  induction objs with
  | nil => intro off k hk; exact absurd hk (by simp)
  | cons o rest ih =>
    intro off k hk hp
    match k with
    | 0 =>
      refine ⟨le_refl off, by simp [emitObjs],
        (emitObjs (off + (encodePdfString (objBlock o)).length) rest).1, ?_⟩
      simp [emitObjs]
    | k + 1 =>
      have hk' : k < rest.length := by simpa using hk
      have hp' : k < (emitObjs (off + (encodePdfString (objBlock o)).length) rest).2.length := by
        rw [emitObjs_pos_length]; exact hk'
      obtain ⟨hle, hbnd, tail, htail⟩ :=
        ih (off + (encodePdfString (objBlock o)).length) k hk' hp'
      refine ⟨?_, ?_, ?_⟩
      · simp only [emitObjs, List.get_cons_succ]
        omega
      · simp only [emitObjs, List.get_cons_succ, List.length_append]
        omega
      · refine ⟨tail, ?_⟩
        simp only [emitObjs, List.get_cons_succ] at htail ⊢
        have harith :
            (emitObjs (off + (encodePdfString (objBlock o)).length) rest).2.get ⟨k, hp'⟩ - off =
            (encodePdfString (objBlock o)).length +
              ((emitObjs (off + (encodePdfString (objBlock o)).length) rest).2.get ⟨k, hp'⟩ -
                (off + (encodePdfString (objBlock o)).length)) := by
          omega
        rw [harith, List.drop_append]
        exact htail

/-- An object block starts with `` `${id} 0 obj` ``. -/
theorem objBlock_split (o : PdfObj) :
    objBlock o = (natToDec o.id ++ strLit " 0 obj") ++
      ([10] ++ o.str ++ strLit "\nendobj\n") := by
  unfold objBlock
  have h : strLit " 0 obj\n" = strLit " 0 obj" ++ [10] := rfl
  rw [h]
  simp [List.append_assoc]

/-- Digit-count bound for the decimal loop. -/
theorem natToDecAux_length :
    ∀ fuel n d : Nat, n ≤ fuel → n < 10 ^ d →
      (natToDecAux fuel n).length ≤ d := by
  intro fuel
  induction fuel with
  | zero => intro n d _ _; simp [natToDecAux]
  | succ fuel ih =>
    intro n d hle hlt
    match n with
    | 0 => simp [natToDecAux]
    | n + 1 =>
      obtain ⟨d', rfl⟩ : ∃ d', d = d' + 1 := by
        refine ⟨d - 1, ?_⟩
        have : d ≠ 0 := by
          intro h0; subst h0; simp at hlt
        omega
      simp only [natToDecAux, List.length_append, List.length_cons,
        List.length_nil]
      have h1 : (n + 1) / 10 ≤ fuel := by omega
      have h2 : (n + 1) / 10 < 10 ^ d' := by
        rw [Nat.div_lt_iff_lt_mul (by norm_num : 0 < 10)]
        calc n + 1 < 10 ^ (d' + 1) := hlt
        _ = 10 ^ d' * 10 := by ring
      have := ih ((n + 1) / 10) d' h1 h2
      omega

/-- A number below `10^d` prints with at most `d` digits. -/
theorem natToDec_length_le (n d : Nat) (hd : 0 < d) (h : n < 10 ^ d) :
    (natToDec n).length ≤ d := by
  unfold natToDec
  split
  · simpa using hd
  · exact natToDecAux_length n n d (le_refl n) h

/-- In a well-formed document the objects appear with ids
`1, 2, 3, …` in creation order (catalog and page tree first). -/
theorem finalObjects_id (p : MinimalPdf) (hwf : p.WF) :
    ∀ i, (hi : i < p.finalObjects.length) →
      (p.finalObjects.get ⟨i, hi⟩).id = i + 1 := by
  obtain ⟨hc, hg, _, hobj⟩ := hwf
  intro i hi
  match i with
  | 0 => simpa [MinimalPdf.finalObjects] using hc
  | 1 => simpa [MinimalPdf.finalObjects] using hg
  | i + 2 =>
    have hi' : i < p.objects.length := by
      simpa [MinimalPdf.finalObjects] using hi
    have := hobj i hi'
    simp only [MinimalPdf.finalObjects, List.get_cons_succ]
    omega

/-- C8.  For every well-formed document: dropping the serialized buffer
to the `k`-th recorded cross-reference offset lands exactly on the first
byte of the object's header text `` `${id} 0 obj` `` (the claim's
`"<id> obj"`; the code writes generation number 0 between the id and
`obj`, and the recorded offset points at the first byte of the id);
object ids are strictly ascending in emission order; the
cross-reference section consists of the `xref` heading, the fixed free
entry for object 0, one entry per recorded position in that order, and
the trailer naming the object count, catalog id and the
cross-reference's own byte offset; and each entry's offset field is
zero-padded to exactly 10 digits (for any offset below `10^10`).
Offsets are counted in encoded UTF-8 bytes throughout (`encodePdfString`
is applied to every written chunk before its length is added). -/
theorem serialize_xref_offsets (p : MinimalPdf) (hwf : p.WF) :
    (∀ k (hk : k < p.finalObjects.length) (hp : k < p.positions.length),
      ∃ tail, p.serialize.drop (p.positions.get ⟨k, hp⟩) =
        encodePdfString (natToDec (p.finalObjects.get ⟨k, hk⟩).id ++
          strLit " 0 obj") ++ tail) ∧
    (∀ i j (hi : i < p.finalObjects.length) (hj : j < p.finalObjects.length),
      i < j → (p.finalObjects.get ⟨i, hi⟩).id < (p.finalObjects.get ⟨j, hj⟩).id) ∧
    (p.xrefSection =
      encodePdfString (strLit "xref\n0 " ++ natToDec (p.finalObjects.length + 1) ++
        strLit "\n") ++
      encodePdfString (strLit "0000000000 65535 f \n") ++
      encodePdfString ((p.positions.map xrefLine).flatten) ++
      encodePdfString (strLit "trailer\n<< /Size " ++
        natToDec (p.finalObjects.length + 1) ++ strLit " /Root " ++
        natToDec p.catalogId ++ strLit " 0 R >>\nstartxref\n" ++
        natToDec (pdfHeader.length +
          (emitObjs pdfHeader.length p.finalObjects).1.length) ++
        strLit "\n%%EOF")) ∧
    (∀ pos ∈ p.positions, pos < 10 ^ 10 →
      (List.replicate (10 - (natToDec pos).length) 48 ++ natToDec pos).length = 10) := by
  refine ⟨?_, ?_, rfl, ?_⟩
  · intro k hk hp
    have hp' : k < (emitObjs pdfHeader.length p.finalObjects).2.length := hp
    obtain ⟨hle, hbnd, tail, htail⟩ :=
      emitObjs_get p.finalObjects pdfHeader.length k hk hp'
    set pos := (emitObjs pdfHeader.length p.finalObjects).2.get ⟨k, hp'⟩ with hposdef
    refine ⟨encodePdfString ([10] ++ (p.finalObjects.get ⟨k, hk⟩).str ++
      strLit "\nendobj\n") ++ tail ++ p.xrefSection, ?_⟩
    have hser : p.serialize =
        pdfHeader ++ ((emitObjs pdfHeader.length p.finalObjects).1 ++ p.xrefSection) := by
      unfold MinimalPdf.serialize
      rw [List.append_assoc]
    rw [hser]
    have hsplit : pos = pdfHeader.length + (pos - pdfHeader.length) := by omega
    rw [show p.positions.get ⟨k, hp⟩ = pos from rfl, hsplit, List.drop_append]
    rw [List.drop_append_of_le_length (by omega)]
    rw [htail]
    rw [objBlock_split, encodePdfString_append] at htail ⊢
    simp [List.append_assoc]
  · intro i j hi hj hij
    rw [finalObjects_id p hwf i hi, finalObjects_id p hwf j hj]
    omega
  · intro pos _ hlt
    have := natToDec_length_le pos 10 (by norm_num) hlt
    simp only [List.length_append, List.length_replicate]
    omega

/-- Witness for `serialize_xref_offsets`: a one-object, one-page
document's first recorded offset lands on catalog object 1's header. -/
theorem serialize_xref_offsets_witness :
    ∃ tail,
      (⟨[⟨3, strLit "x"⟩], [3], 4, 1, 2⟩ : MinimalPdf).serialize.drop
        ((⟨[⟨3, strLit "x"⟩], [3], 4, 1, 2⟩ : MinimalPdf).positions.get
          ⟨0, by decide⟩) =
      encodePdfString (natToDec 1 ++ strLit " 0 obj") ++ tail := by
  have h := serialize_xref_offsets ⟨[⟨3, strLit "x"⟩], [3], 4, 1, 2⟩
    ⟨rfl, rfl, rfl, by decide⟩
  exact h.1 0 (by decide) (by decide)

/-- C9, counterexample.  The claim says serializing a document with an
empty page list fails before any bytes are emitted.  `serialize` never
inspects the page list: on a freshly constructed document (no
`addPageWithImage` call) it still emits a complete buffer, beginning
with the header line. -/
theorem serialize_no_empty_page_check :
    MinimalPdf.new.pages = [] ∧
    MinimalPdf.new.serialize ≠ [] ∧
    MinimalPdf.new.serialize.take 9 = strLit "%PDF-1.4\n" := by
  refine ⟨rfl, ?_, ?_⟩
  · decide
  · decide

/-- C9, amended.  `serialize` performs no object-graph validation at
all: for *every* document state, including one with an empty page list,
it returns a non-empty byte buffer starting with the header line (the
page tree is then emitted with an empty kid list and `/Count 0`). -/
theorem serialize_always_emits (p : MinimalPdf) :
    p.serialize.take 9 = strLit "%PDF-1.4\n" ∧ p.serialize ≠ [] := by
  constructor
  · unfold MinimalPdf.serialize
    rw [List.append_assoc]
    exact List.take_left' rfl
  · unfold MinimalPdf.serialize
    intro h
    simp only [List.append_eq_nil] at h
    exact absurd h.1.1 (by decide)

/-- C10.  When either pixel dimension exceeds 14400 (both positive; a
zero dimension cannot reach this code path since the canvas encoder
fails first), only the page geometry is downscaled by
`s = min (14400 / pixelWidth) (14400 / pixelHeight)`:
`pdfScaledDims` returns the rounded scaled pair, the content-stream
transform and the `/MediaBox` of the page object use those scaled
values, while the image XObject keeps `/Width`/`/Height` equal to the
original, un-downscaled pixel dimensions of the stitched raster. -/
theorem pdf_downscale_geometry (jpeg : List Nat) (w h : Nat)
    (_hw : 0 < w) (_hh : 0 < h) (hbig : 14400 < w ∨ 14400 < h) :
    pdfScaledDims w h =
      (jsRound ((w : ℚ) * min (14400 / (w : ℚ)) (14400 / (h : ℚ))),
       jsRound ((h : ℚ) * min (14400 / (w : ℚ)) (14400 / (h : ℚ)))) ∧
    (createPdfFromCanvas jpeg w h).objects =
      [⟨3, strLit "<< /Type /XObject /Subtype /Image /Width " ++
        natToDec w ++ strLit " /Height " ++ natToDec h ++
        strLit " /ColorSpace /DeviceRGB /BitsPerComponent 8 /Filter [/ASCII85Decode /DCTDecode] /Length " ++
        natToDec (ascii85Encode jpeg).length ++ strLit " >>" ++
        strLit "\nstream\n" ++ ascii85Encode jpeg ++ strLit "\nendstream"⟩,
       ⟨4, strLit "<< /Length " ++
        natToDec (strLit "q\n" ++
          intToDec (jsRound ((w : ℚ) * min (14400 / (w : ℚ)) (14400 / (h : ℚ)))) ++
          strLit " 0 0 " ++
          intToDec (jsRound ((h : ℚ) * min (14400 / (w : ℚ)) (14400 / (h : ℚ)))) ++
          strLit " 0 0 cm\n/Im1 Do\nQ\n").length ++
        strLit " >>\nstream\n" ++
        (strLit "q\n" ++
          intToDec (jsRound ((w : ℚ) * min (14400 / (w : ℚ)) (14400 / (h : ℚ)))) ++
          strLit " 0 0 " ++
          intToDec (jsRound ((h : ℚ) * min (14400 / (w : ℚ)) (14400 / (h : ℚ)))) ++
          strLit " 0 0 cm\n/Im1 Do\nQ\n") ++
        strLit "\nendstream"⟩,
       ⟨5, strLit "<< /XObject << /Im1 " ++ natToDec 3 ++
        strLit " 0 R >> /ProcSet [/PDF /ImageB /ImageC /ImageI] >>"⟩,
       ⟨6, strLit "<< /Type /Page /Parent " ++ natToDec 2 ++
        strLit " 0 R /MediaBox [0 0 " ++
        intToDec (jsRound ((w : ℚ) * min (14400 / (w : ℚ)) (14400 / (h : ℚ)))) ++
        strLit " " ++
        intToDec (jsRound ((h : ℚ) * min (14400 / (w : ℚ)) (14400 / (h : ℚ)))) ++
        strLit "] /Contents " ++ natToDec 4 ++ strLit " 0 R /Resources " ++
        natToDec 5 ++ strLit " 0 R >>"⟩] ∧
    (createPdfFromCanvas jpeg w h).pages = [6] := by
  have hdims : pdfScaledDims w h =
      (jsRound ((w : ℚ) * min (14400 / (w : ℚ)) (14400 / (h : ℚ))),
       jsRound ((h : ℚ) * min (14400 / (w : ℚ)) (14400 / (h : ℚ)))) := by
    unfold pdfScaledDims
    rw [if_pos hbig]
  refine ⟨hdims, ?_, ?_⟩ <;>
    simp [createPdfFromCanvas, hdims, MinimalPdf.new, MinimalPdf.addJpegImage,
      MinimalPdf.addObject, MinimalPdf.addPageWithImage]

/-- Witness for `pdf_downscale_geometry`: a 28800 × 100 raster scales by
`1/2` to a 14400 × 50 page. -/
theorem pdf_downscale_geometry_witness :
    pdfScaledDims 28800 100 = (14400, 50) := by
  have hd := (pdf_downscale_geometry [1] 28800 100 (by norm_num) (by norm_num)
    (Or.inl (by norm_num))).1
  rw [hd]
  norm_num [jsRound, min_def]

end ScreenShot
